import Mathlib

/-!
Shallow embedding of the core behavior of the E-commerce Product API
(Django REST Framework application, files `api/views.py`,
`api/serializers.py`, `api/models.py`).

Querysets become Lean lists, rows become structures, and each endpoint
becomes a pure function from an explicit store to a store plus a result
code.  Decimal prices are embedded as unnormalized scaled integers, and
the Python `float(...)` and `int(...)` conversions and the ISO timestamp
parse become `Option`-valued parsers where `none` models the
`ValueError`/`TypeError` branch of the source.  String operations are
carried out on character lists so that every definition evaluates inside
the kernel.
-/

/-! ## String helpers: case-insensitive containment (Django `icontains`). -/

/-- Lower-case a character list. -/
def lowerChars (cs : List Char) : List Char :=
  cs.map Char.toLower

/-- Boolean test that the second list is an initial segment of the first. -/
def strStarts : List Char → List Char → Bool
  | _, [] => true
  | [], _ :: _ => false
  | a :: s, b :: t => a == b && strStarts s t

/-- Boolean substring test on character lists. -/
def strHasSub (needle : List Char) : List Char → Bool
  | [] => strStarts [] needle
  | c :: t => strStarts (c :: t) needle || strHasSub needle t

/-- Case-insensitive substring test, the embedding of the ORM lookup
`field__icontains=needle`. -/
def icontains (hay : String) (needle : List Char) : Bool :=
  strHasSub (lowerChars needle) (lowerChars hay.data)

/-- Case-insensitive equality with a fixed word, the embedding of
`s.lower() == w`. -/
def lowerIs (s : String) (w : List Char) : Bool :=
  lowerChars s.data == w

/-! ## Parsers for query-parameter strings. -/

/-- Fold a digit list into a number, failing on a non-digit. -/
def decDigits? (cs : List Char) : Option Nat :=
  cs.foldl
    (fun acc c =>
      acc.bind (fun n => if c.isDigit then some (n * 10 + (c.toNat - 48)) else none))
    (some 0)

/-- Digits-only parse that also fails on the empty list. -/
def digitsOnly? (cs : List Char) : Option Nat :=
  if cs.isEmpty then none else decDigits? cs

/-- Embedding of Python `int(s)` on a string: optional sign followed by
digits, `none` on anything else (the `ValueError` branch). -/
def pyInt? (s : String) : Option Int :=
  match s.data with
  | '-' :: t => (digitsOnly? t).map (fun n => -(n : Int))
  | '+' :: t => (digitsOnly? t).map (fun n => (n : Int))
  | t => (digitsOnly? t).map (fun n => (n : Int))

/-- Unnormalized decimal number `num / 10 ^ exp`, the embedding of the
values produced by `DecimalField` rows and by parsing decimal request
strings. -/
structure Money where
  num : Int
  exp : Nat
deriving DecidableEq, Repr

/-- Comparison of two decimals by cross-multiplying the scales. -/
def Money.le (a b : Money) : Bool :=
  a.num * 10 ^ b.exp ≤ b.num * 10 ^ a.exp

/-- Decimal with two fractional digits, how `DecimalField(decimal_places=2)`
stores a price: `dec2 n` denotes `n / 100`. -/
def dec2 (n : Int) : Money :=
  ⟨n, 2⟩

/-- Embedding of Python `float(s)` restricted to plain decimal literals:
optional sign, digits, optional fractional part.  Returns `none` on
anything else (the `ValueError` branch). -/
def pyFloat? (s : String) : Option Money :=
  let (neg, cs) :=
    match s.data with
    | '-' :: t => (true, t)
    | '+' :: t => (false, t)
    | t => (false, t)
  let ip := cs.takeWhile Char.isDigit
  let rest := cs.dropWhile Char.isDigit
  let sign : Int → Int := fun n => if neg then -n else n
  match rest with
  | [] =>
      if ip.isEmpty then none
      else (decDigits? ip).map (fun n => ⟨sign n, 0⟩)
  | '.' :: fp =>
      if fp.all Char.isDigit && !(ip.isEmpty && fp.isEmpty) then
        match decDigits? ip, decDigits? fp with
        | some n, some f => some ⟨sign ((n : Int) * 10 ^ fp.length + f), fp.length⟩
        | _, _ => none
      else none
  | _ => none

/-- Embedding of `str.replace("Z", "+00:00")` on character lists. -/
def replaceZ (cs : List Char) : List Char :=
  cs.foldr
    (fun c acc =>
      if c == 'Z' then '+' :: '0' :: '0' :: ':' :: '0' :: '0' :: acc else c :: acc)
    []

/-- Embedding of `datetime.fromisoformat` restricted to `YYYY-MM-DD`
dates, encoded as the integer `y*10000 + m*100 + d`; `none` on anything
else (the `ValueError` branch). -/
def isoParse? (cs : List Char) : Option Int :=
  match cs with
  | [y1, y2, y3, y4, '-', m1, m2, '-', d1, d2] =>
      if [y1, y2, y3, y4, m1, m2, d1, d2].all Char.isDigit then
        match decDigits? [y1, y2, y3, y4], decDigits? [m1, m2], decDigits? [d1, d2] with
        | some y, some m, some d =>
            if 1 ≤ m && m ≤ 12 && 1 ≤ d && d ≤ 31 then
              some ((y : Int) * 10000 + (m : Int) * 100 + (d : Int))
            else none
        | _, _, _ => none
      else none
  | _ => none

/-- Worker for whitespace splitting, carrying the current token reversed. -/
def splitWsAux : List Char → List Char → List (List Char)
  | [], acc => if acc.isEmpty then [] else [acc.reverse]
  | c :: t, acc =>
      if c.isWhitespace then
        if acc.isEmpty then splitWsAux t [] else acc.reverse :: splitWsAux t []
      else splitWsAux t (c :: acc)

/-- Embedding of Python `str.split()` with no argument: split on
whitespace runs, dropping empty pieces. -/
def pySplit (s : String) : List (List Char) :=
  splitWsAux s.data []

/-! ## Data model (`api/models.py`). -/

/-- Row of the `Category` table. -/
structure Category where
  id : Nat
  name : String
deriving DecidableEq, Repr

/-- Row of the `Product` table, with its category joined in
(`select_related("category")`). -/
structure Product where
  id : Nat
  name : String
  description : String
  price : Money
  stock_quantity : Nat
  created_date : Int
  category : Category
deriving DecidableEq, Repr

/-- Row of the `CartItem` table. -/
structure CartItem where
  id : Nat
  cartId : Nat
  productId : Nat
  quantity : Nat
deriving DecidableEq, Repr

/-- Row of the `Cart` table. -/
structure Cart where
  id : Nat
  userId : Nat
deriving DecidableEq, Repr

/-- Row of the `Wishlist` table. -/
structure WishRow where
  id : Nat
  userId : Nat
  productId : Nat
deriving DecidableEq, Repr

/-- The persisted store the cart, wishlist and stock endpoints act on. -/
structure Store where
  products : List Product
  carts : List Cart
  items : List CartItem
  wishlists : List WishRow
  nextId : Nat
deriving DecidableEq, Repr

/-- Embedding of `Product.objects.get(pk=pid)` as a lookup in the product
list. -/
def findProduct? (ps : List Product) (pid : Nat) : Option Product :=
  ps.find? (fun p => p.id == pid)

/-! ## Product query filter (`ProductViewSet.get_queryset`). -/

/-- The optional query parameters read by `ProductViewSet.get_queryset`,
each as the raw string from the request, `none` when absent. -/
structure Params where
  category : Option String := none
  min_price : Option String := none
  max_price : Option String := none
  in_stock : Option String := none
  min_stock : Option String := none
  created_after : Option String := none
  created_before : Option String := none
  search : Option String := none
deriving DecidableEq, Repr

/-- Category filter: an integer value filters by category id, any other
value filters by case-insensitive substring on the category name. -/
def filterCategory (v : Option String) (l : List Product) : List Product :=
  match v with
  | none => l
  | some s =>
      match pyInt? s with
      | some cid => l.filter (fun pr => (pr.category.id : Int) == cid)
      | none => l.filter (fun pr => icontains pr.category.name s.data)

/-- Minimum-price filter; an unparseable value leaves the queryset
unchanged. -/
def filterMinPrice (v : Option String) (l : List Product) : List Product :=
  match v with
  | none => l
  | some s =>
      match pyFloat? s with
      | some q => l.filter (fun pr => q.le pr.price)
      | none => l

/-- Maximum-price filter; an unparseable value leaves the queryset
unchanged. -/
def filterMaxPrice (v : Option String) (l : List Product) : List Product :=
  match v with
  | none => l
  | some s =>
      match pyFloat? s with
      | some q => l.filter (fun pr => pr.price.le q)
      | none => l

/-- Stock-availability filter: `"true"` keeps positive stock, `"false"`
keeps zero stock, anything else is ignored. -/
def filterInStock (v : Option String) (l : List Product) : List Product :=
  match v with
  | none => l
  | some s =>
      if lowerIs s ['t', 'r', 'u', 'e'] then l.filter (fun pr => 0 < pr.stock_quantity)
      else if lowerIs s ['f', 'a', 'l', 's', 'e'] then
        l.filter (fun pr => pr.stock_quantity == 0)
      else l

/-- Minimum-stock filter; an unparseable value leaves the queryset
unchanged. -/
def filterMinStock (v : Option String) (l : List Product) : List Product :=
  match v with
  | none => l
  | some s =>
      match pyInt? s with
      | some n => l.filter (fun pr => n ≤ (pr.stock_quantity : Int))
      | none => l

/-- Creation-date lower bound; the code first replaces `Z` by an explicit
offset, and an unparseable value leaves the queryset unchanged. -/
def filterCreatedAfter (v : Option String) (l : List Product) : List Product :=
  match v with
  | none => l
  | some s =>
      match isoParse? (replaceZ s.data) with
      | some d => l.filter (fun pr => d ≤ pr.created_date)
      | none => l

/-- Creation-date upper bound; an unparseable value leaves the queryset
unchanged. -/
def filterCreatedBefore (v : Option String) (l : List Product) : List Product :=
  match v with
  | none => l
  | some s =>
      match isoParse? (replaceZ s.data) with
      | some d => l.filter (fun pr => pr.created_date ≤ d)
      | none => l

/-- One search term matches a product when the name, the description or
the category name contains it case-insensitively. -/
def matchesTerm (pr : Product) (t : List Char) : Bool :=
  icontains pr.name t || icontains pr.description t || icontains pr.category.name t

/-- Embedding of `.distinct()`: keep the first row for each id. -/
def dedupById : List Product → List Product :=
  go []
where
  /-- Recursive worker carrying the ids already seen. -/
  go (seen : List Nat) : List Product → List Product
    | [] => []
    | p :: t => if seen.contains p.id then go seen t else p :: go (p.id :: seen) t

/-- Search filter of `get_queryset`: the search string is split on
whitespace and the per-term clauses are OR-combined into one `Q` object
(`query |= ...`), so a product is kept when ANY term matches; an empty
term list leaves the empty `Q()`, which matches everything.  The result
is passed through `.distinct()`. -/
def filterSearch (v : Option String) (l : List Product) : List Product :=
  match v with
  | none => l
  | some s =>
      let terms := pySplit s
      if terms.isEmpty then l
      else dedupById (l.filter (fun pr => terms.any (fun t => matchesTerm pr t)))

/-- Embedding of `ProductViewSet.get_queryset`: the filters applied in
source order. -/
def get_queryset (ps : Params) (l : List Product) : List Product :=
  filterSearch ps.search
    (filterCreatedBefore ps.created_before
      (filterCreatedAfter ps.created_after
        (filterMinStock ps.min_stock
          (filterInStock ps.in_stock
            (filterMaxPrice ps.max_price
              (filterMinPrice ps.min_price
                (filterCategory ps.category l)))))))


/-! ## Category-scoped product listing (`CategoryViewSet.products`). -/

/-- Embedding of `CategoryViewSet.products`: products of one category,
with the narrower filter set of that endpoint.  The `search` value is a
single substring tested against name and description only (no term
splitting, no category name), the price bounds are guarded by Python
truthiness (`if min_price:`), and only `in_stock=true` is handled. -/
def category_products (catId : Nat) (ps : Params) (l : List Product) : List Product :=
  let prods := l.filter (fun pr => pr.category.id == catId)
  let prods :=
    match ps.search with
    | some s => if !s.data.isEmpty then
        prods.filter (fun pr => icontains pr.name s.data || icontains pr.description s.data)
      else prods
    | none => prods
  let prods :=
    match ps.min_price with
    | some s => if !s.data.isEmpty then
        match pyFloat? s with
        | some q => prods.filter (fun pr => q.le pr.price)
        | none => prods
      else prods
    | none => prods
  let prods :=
    match ps.max_price with
    | some s => if !s.data.isEmpty then
        match pyFloat? s with
        | some q => prods.filter (fun pr => pr.price.le q)
        | none => prods
      else prods
    | none => prods
  match ps.in_stock with
  | some s => if lowerIs s ['t', 'r', 'u', 'e'] then
      prods.filter (fun pr => 0 < pr.stock_quantity)
    else prods
  | none => prods

/-! ## Stock update (`ProductViewSet.update_stock`). -/

/-- Result codes of `update_stock`. -/
inductive StockResult
  | notFound
  | negativeStock
  | updated
deriving DecidableEq, Repr

/-- Embedding of `ProductViewSet.update_stock`: `quantity_change`
defaults to `0` when the key is absent from the body; the new stock is
the old stock plus the change, rejected if negative. -/
def update_stock (st : Store) (pid : Nat) (qc : Option Int) : Store × StockResult :=
  match findProduct? st.products pid with
  | none => (st, .notFound)
  | some p =>
      let change := qc.getD 0
      let ns := (p.stock_quantity : Int) + change
      if ns < 0 then (st, .negativeStock)
      else
        ({ st with
            products :=
              st.products.map
                (fun x => if x.id == pid then { x with stock_quantity := ns.toNat } else x) },
         .updated)

/-! ## Cart operations (`CartViewSet`). -/

/-- Result codes of the cart `create` (Add) endpoint. -/
inductive AddResult
  | badQuantity
  | productNotFound
  | exceedsStock
  | mergeExceedsStock
  | created
deriving DecidableEq, Repr

/-- Embedding of `Cart.objects.get_or_create(user=...)`. -/
def getOrCreateCart (st : Store) (userId : Nat) : Store × Nat :=
  match st.carts.find? (fun c => c.userId == userId) with
  | some c => (st, c.id)
  | none =>
      ({ st with carts := st.carts ++ [⟨st.nextId, userId⟩], nextId := st.nextId + 1 },
       st.nextId)

/-- Items of one cart referencing one product. -/
def itemsFor (st : Store) (cartId pid : Nat) : List CartItem :=
  st.items.filter (fun it => it.cartId == cartId && it.productId == pid)

/-- Body of `CartViewSet.create` (Add) after the cart lookup: validate
the quantity, look the product up, check the request quantity against
current stock, then either create a fresh item or merge into the
existing one, re-checking the merged quantity against current stock. -/
def cartAddCore (st : Store) (cartId pid : Nat) (quantity : Int) : Store × AddResult :=
  if quantity < 1 then (st, .badQuantity)
  else
    match findProduct? st.products pid with
    | none => (st, .productNotFound)
    | some p =>
        let q := quantity.toNat
        if p.stock_quantity < q then (st, .exceedsStock)
        else
          match st.items.find? (fun it => it.cartId == cartId && it.productId == pid) with
          | none =>
              ({ st with
                  items := st.items ++ [⟨st.nextId, cartId, pid, q⟩],
                  nextId := st.nextId + 1 },
               .created)
          | some it =>
              let newQ := it.quantity + q
              if p.stock_quantity < newQ then (st, .mergeExceedsStock)
              else
                ({ st with
                    items :=
                      st.items.map
                        (fun j => if j.id == it.id then { j with quantity := newQ } else j) },
                 .created)

/-- Embedding of `CartViewSet.create` (Add): the cart of the user is
looked up or created first, then the request is validated and merged by
`cartAddCore`. -/
def cartAdd (st0 : Store) (userId pid : Nat) (quantity : Int) : Store × AddResult :=
  let (st, cartId) := getOrCreateCart st0 userId
  cartAddCore st cartId pid quantity

/-- Result codes of the cart `update_item` (SetQuantity) endpoint. -/
inductive UpdResult
  | itemNotFound
  | missingQuantity
  | badQuantity
  | exceedsStock
  | updated
deriving DecidableEq, Repr

/-- Ownership test behind `CartItem.objects.get(pk=item_id, cart__user=user)`. -/
def cartBelongs (st : Store) (cartId userId : Nat) : Bool :=
  match st.carts.find? (fun c => c.id == cartId) with
  | some c => c.userId == userId
  | none => false

/-- Embedding of `CartViewSet.update_item` (SetQuantity): the item is
looked up by id filtered to the cart of the requesting user (absence of
either gives the same not-found), the quantity is required and must be at
least 1 and at most the current stock of the product of the item, and on
success the quantity is overwritten.  The product lookup models the
non-null foreign key `cart_item.product`; referential integrity makes its
failure branch unreachable on well-formed stores. -/
def cartUpdateItem (st : Store) (userId itemId : Nat) (quantity : Option Int) :
    Store × UpdResult :=
  match st.items.find? (fun it => it.id == itemId && cartBelongs st it.cartId userId) with
  | none => (st, .itemNotFound)
  | some it =>
      match quantity with
      | none => (st, .missingQuantity)
      | some q =>
          if q < 1 then (st, .badQuantity)
          else
            match findProduct? st.products it.productId with
            | none => (st, .itemNotFound)
            | some p =>
                if (p.stock_quantity : Int) < q then (st, .exceedsStock)
                else
                  ({ st with
                      items :=
                        st.items.map
                          (fun j =>
                            if j.id == it.id then { j with quantity := q.toNat } else j) },
                   .updated)

/-! ## Wishlist Add (`WishlistViewSet.create` with
`WishlistSerializer.validate_product`). -/

/-- Result codes of the wishlist `create` endpoint, separating the
serializer validation error (HTTP 400) from the not-found of the view
(HTTP 404). -/
inductive WishResult
  | validationError
  | notFound
  | created
deriving DecidableEq, Repr

/-- Embedding of `WishlistViewSet.create`: the serializer runs first and
rejects a `product` value that references no existing product (invalid
primary key) as well as a (user, product) pair already present; only then
does the view perform its own product lookup, whose not-found branch is
therefore dead code, and create the row. -/
def wishlistAdd (st : Store) (userId pid : Nat) : Store × WishResult :=
  match findProduct? st.products pid with
  | none => (st, .validationError)
  | some _ =>
      if st.wishlists.any (fun w => w.userId == userId && w.productId == pid) then
        (st, .validationError)
      else
        match findProduct? st.products pid with
        | none => (st, .notFound)
        | some _ =>
            ({ st with
                wishlists := st.wishlists ++ [⟨st.nextId, userId, pid⟩],
                nextId := st.nextId + 1 },
             .created)

/-! ## Registration (`UserRegistrationSerializer`, `UserRegistrationView`). -/

/-- Row of the `User` table, with the password kept as the value the
external hasher was handed. -/
structure UserRow where
  id : Nat
  username : String
  email : String
  password : String
  first_name : String
  last_name : String
deriving DecidableEq, Repr

/-- The slice of the store the registration endpoint acts on. -/
structure RegStore where
  users : List UserRow
  regCarts : List Cart
  nextId : Nat
deriving DecidableEq, Repr

/-- Body of a registration request. -/
structure RegRequest where
  username : String
  email : String
  password : String
  password_confirm : String
  first_name : Option String := none
  last_name : Option String := none
deriving DecidableEq, Repr

/-- Result of registration: a validation error, or the created user id
with the pair of issued tokens. -/
inductive RegResult
  | validationError
  | created (userId : Nat) (tokens : String × String)
deriving DecidableEq, Repr

/-- Embedding of `UserRegistrationView.create` with
`UserRegistrationSerializer`, parameterized by the external password
validator and token issuer: unique username and email, password strength,
and the matching confirmation are validated before anything is written;
on success `create` adds one user row and one cart row and the view
returns the issued token pair. -/
def register (strong : String → Bool) (issueTokens : Nat → String × String)
    (st : RegStore) (r : RegRequest) : RegStore × RegResult :=
  if st.users.any (fun u => u.username == r.username) then (st, .validationError)
  else if st.users.any (fun u => u.email == r.email) then (st, .validationError)
  else if !strong r.password then (st, .validationError)
  else if r.password != r.password_confirm then (st, .validationError)
  else
    let uid := st.nextId
    let user : UserRow :=
      ⟨uid, r.username, r.email, r.password, r.first_name.getD "", r.last_name.getD ""⟩
    ({ users := st.users ++ [user],
       regCarts := st.regCarts ++ [⟨st.nextId + 1, uid⟩],
       nextId := st.nextId + 2 },
     .created uid (issueTokens uid))

/-! ## Derived predicates and specification-side definitions. -/

/-- The product rows carry pairwise distinct ids (a database key fact). -/
def idsNodup (l : List Product) : Prop :=
  (l.map Product.id).Nodup

/-- The cart-item rows carry pairwise distinct ids. -/
def itemIdsNodup (items : List CartItem) : Prop :=
  (items.map CartItem.id).Nodup

/-- No two wishlist rows share the same (user, product) pair. -/
def pairsNodup (ws : List WishRow) : Prop :=
  (ws.map (fun w => (w.userId, w.productId))).Nodup

/-- One cart item satisfies the stock-bound invariant against the current
product table. -/
def itemOK (prods : List Product) (it : CartItem) : Bool :=
  1 ≤ it.quantity &&
    (match findProduct? prods it.productId with
     | some p => it.quantity ≤ p.stock_quantity
     | none => true)

/-- The invariant of the spec: every cart item has
`1 ≤ quantity ≤ product.stock_quantity` against current stock. -/
def cartInvariant (st : Store) : Bool :=
  st.items.all (itemOK st.products)

/-- Modelled from the spec: the search semantics the spec asserts, namely
that every whitespace term must match (AND across terms).  Stated only to
be compared against the search filter of `get_queryset`. -/
def specSearchAND (s : String) (l : List Product) : List Product :=
  l.filter (fun pr => (pySplit s).all (fun t => matchesTerm pr t))

/-! ## Filter kinds: the eight pure predicates of the product filter. -/

/-- One constructor per filter of `get_queryset`. -/
inductive FKind
  | cat | minP | maxP | inSt | minSt | cAfter | cBefore | srch
deriving DecidableEq, Repr

/-- Applying one filter of `get_queryset`. -/
def applyK : FKind → Params → List Product → List Product
  | .cat, ps, l => filterCategory ps.category l
  | .minP, ps, l => filterMinPrice ps.min_price l
  | .maxP, ps, l => filterMaxPrice ps.max_price l
  | .inSt, ps, l => filterInStock ps.in_stock l
  | .minSt, ps, l => filterMinStock ps.min_stock l
  | .cAfter, ps, l => filterCreatedAfter ps.created_after l
  | .cBefore, ps, l => filterCreatedBefore ps.created_before l
  | .srch, ps, l => filterSearch ps.search l

/-- The filters in the order the source applies them. -/
def allKinds : List FKind :=
  [.cat, .minP, .maxP, .inSt, .minSt, .cAfter, .cBefore, .srch]

/-- The pure per-product predicate of one filter. -/
def predK : FKind → Params → Product → Bool
  | .cat, ps, pr =>
      match ps.category with
      | none => true
      | some s =>
          match pyInt? s with
          | some cid => (pr.category.id : Int) == cid
          | none => icontains pr.category.name s.data
  | .minP, ps, pr =>
      match ps.min_price with
      | none => true
      | some s =>
          match pyFloat? s with
          | some q => q.le pr.price
          | none => true
  | .maxP, ps, pr =>
      match ps.max_price with
      | none => true
      | some s =>
          match pyFloat? s with
          | some q => pr.price.le q
          | none => true
  | .inSt, ps, pr =>
      match ps.in_stock with
      | none => true
      | some s =>
          if lowerIs s ['t', 'r', 'u', 'e'] then decide (0 < pr.stock_quantity)
          else if lowerIs s ['f', 'a', 'l', 's', 'e'] then pr.stock_quantity == 0
          else true
  | .minSt, ps, pr =>
      match ps.min_stock with
      | none => true
      | some s =>
          match pyInt? s with
          | some n => decide (n ≤ (pr.stock_quantity : Int))
          | none => true
  | .cAfter, ps, pr =>
      match ps.created_after with
      | none => true
      | some s =>
          match isoParse? (replaceZ s.data) with
          | some d => decide (d ≤ pr.created_date)
          | none => true
  | .cBefore, ps, pr =>
      match ps.created_before with
      | none => true
      | some s =>
          match isoParse? (replaceZ s.data) with
          | some d => decide (pr.created_date ≤ d)
          | none => true
  | .srch, ps, pr =>
      match ps.search with
      | none => true
      | some s =>
          let terms := pySplit s
          terms.isEmpty || terms.any (fun t => matchesTerm pr t)

/-- Applying a list of filters in order. -/
def applyOrder (ps : Params) (order : List FKind) (l : List Product) : List Product :=
  order.foldl (fun acc k => applyK k ps acc) l

/-! ## Sample data used by the concrete theorems. -/

/-- Sample category. -/
def cBooks : Category := ⟨1, "Books"⟩

/-- Sample category. -/
def cTech : Category := ⟨2, "Electronics"⟩

/-- Product whose name contains the term `python` but not `programming`. -/
def pythonGuide : Product :=
  ⟨1, "Python Guide", "A short guide", dec2 1999, 3, 20240101, cBooks⟩

/-- The product of the spec scenario. -/
def bookP : Product :=
  ⟨2, "Python Programming Book", "Comprehensive guide to Python programming",
   dec2 4999, 100, 20240102, cBooks⟩

/-- An unrelated product matching no search term of the scenario. -/
def laptopP : Product :=
  ⟨3, "Laptop Gaming", "High-performance gaming laptop", dec2 159999, 5, 20240103, cTech⟩

/-- The catalog of the spec scenario. -/
def catalog1 : List Product := [bookP, laptopP]

/-- Store with one product (stock 10), one cart and one cart item of
quantity 5, used against `update_stock`. -/
def st3 : Store :=
  { products := [⟨1, "Widget", "", dec2 1000, 10, 20240101, cBooks⟩],
    carts := [⟨2, 7⟩],
    items := [⟨3, 2, 1, 5⟩],
    wishlists := [],
    nextId := 4 }

/-- Store with one product (stock 10), one cart for user 7 and one cart
item of quantity 2 for that product. -/
def stA : Store :=
  { products := [⟨1, "Widget", "", dec2 1000, 10, 20240101, cBooks⟩],
    carts := [⟨2, 7⟩],
    items := [⟨3, 2, 1, 2⟩],
    wishlists := [],
    nextId := 4 }

/-- Store like `stA` but with the cart item at quantity 4. -/
def stB : Store :=
  { products := [⟨1, "Widget", "", dec2 1000, 10, 20240101, cBooks⟩],
    carts := [⟨2, 7⟩],
    items := [⟨3, 2, 1, 4⟩],
    wishlists := [],
    nextId := 4 }

/-- Empty registration store. -/
def regSt : RegStore :=
  { users := [], regCarts := [], nextId := 1 }

/-! ## Infrastructure lemmas. -/

/-- Filtering preserves distinctness of ids. -/
theorem idsNodup_filter (p : Product → Bool) {l : List Product} (h : idsNodup l) :
    idsNodup (l.filter p) :=
  List.Nodup.sublist (List.Sublist.map Product.id (List.filter_sublist l)) h

/-- The dedup worker is the identity on a list whose ids are distinct and
disjoint from the ids already seen. -/
theorem dedupById_go_eq_self (seen : List Nat) :
    ∀ l : List Product, idsNodup l → (∀ p ∈ l, p.id ∉ seen) → dedupById.go seen l = l := by
  intro l
  induction l generalizing seen with
  | nil => intro _ _; rfl
  | cons hd tl ih =>
      intro h hdisj
      have hhd : hd.id ∉ seen := hdisj hd (List.mem_cons_self hd tl)
      have h1 : idsNodup tl := (List.nodup_cons.mp h).2
      have h2 : ∀ p ∈ tl, p.id ∉ hd.id :: seen := by
        intro p hp
        simp only [List.mem_cons, not_or]
        refine ⟨?_, hdisj p (List.mem_cons_of_mem hd hp)⟩
        intro he
        exact (List.nodup_cons.mp h).1 (he ▸ List.mem_map_of_mem Product.id hp)
      simp only [dedupById.go]
      rw [if_neg (by simpa using hhd), ih _ h1 h2]

/-- Under distinct ids, `.distinct()` is the identity. -/
theorem dedupById_eq_self {l : List Product} (h : idsNodup l) : dedupById l = l :=
  dedupById_go_eq_self [] l h (by intro p _; exact List.not_mem_nil p.id)

/-- The dedup worker always returns distinct ids, avoiding the seen ones. -/
theorem dedupById_go_nodup (seen : List Nat) :
    ∀ l : List Product,
      idsNodup (dedupById.go seen l) ∧ ∀ p ∈ dedupById.go seen l, p.id ∉ seen := by
  intro l
  induction l generalizing seen with
  | nil => exact ⟨List.nodup_nil, by intro p hp; cases hp⟩
  | cons hd tl ih =>
      simp only [dedupById.go]
      by_cases hc : seen.contains hd.id
      · rw [if_pos hc]
        refine ⟨(ih seen).1, (ih seen).2⟩
      · rw [if_neg hc]
        have hrec := ih (hd.id :: seen)
        constructor
        · refine List.nodup_cons.mpr ⟨?_, hrec.1⟩
          intro hmem
          rcases List.mem_map.mp hmem with ⟨p, hp, hpid⟩
          exact hrec.2 p hp (by simp [hpid])
        · intro p hp
          rcases List.mem_cons.mp hp with h | h
          · subst h; simpa using hc
          · intro hs
            exact hrec.2 p h (List.mem_cons_of_mem _ hs)

/-- Deduplicated results have distinct ids. -/
theorem dedupById_idsNodup (l : List Product) : idsNodup (dedupById l) :=
  (dedupById_go_nodup [] l).1

/-- A filter returning a singleton pins down `find?`. -/
theorem find?_of_filter_singleton {α} {p : α → Bool} {l : List α} {a : α}
    (h : l.filter p = [a]) : l.find? p = some a := by
  induction l with
  | nil => simp at h
  | cons hd tl ih =>
      by_cases hp : p hd
      · rw [List.filter_cons_of_pos hp] at h
        injection h with h1 h2
        rw [List.find?_cons_of_pos _ hp, h1]
      · rw [List.filter_cons_of_neg hp] at h
        rw [List.find?_cons_of_neg _ hp]
        exact ih h

/-- A map that moves no element is the identity. -/
theorem map_eq_self_of {α} {f : α → α} {l : List α} (h : ∀ x ∈ l, f x = x) :
    l.map f = l := by
  induction l with
  | nil => rfl
  | cons hd tl ih =>
      rw [List.map_cons, h hd (List.mem_cons_self hd tl),
        ih (fun x hx => h x (List.mem_cons_of_mem hd hx))]

/-- Two members of a list with distinct images under a map agreeing on
that map are equal. -/
theorem eq_of_mem_of_map_nodup {α β} {f : α → β} {l : List α}
    (h : (l.map f).Nodup) {a b : α} (ha : a ∈ l) (hb : b ∈ l) (hab : f a = f b) :
    a = b :=
  List.inj_on_of_nodup_map h ha hb hab

/-- Every filter kind occurs in the canonical list. -/
theorem mem_allKinds (k : FKind) : k ∈ allKinds := by
  cases k <;> simp [allKinds]

/-- Each filter keeps the ids distinct. -/
theorem applyK_idsNodup (k : FKind) (ps : Params) {m : List Product} (h : idsNodup m) :
    idsNodup (applyK k ps m) := by
  cases k <;>
    simp only [applyK, filterCategory, filterMinPrice, filterMaxPrice, filterInStock,
      filterMinStock, filterCreatedAfter, filterCreatedBefore, filterSearch] <;>
    (repeat' split) <;>
    first
    | exact h
    | exact idsNodup_filter _ h
    | (rw [dedupById_eq_self (idsNodup_filter _ h)]; exact idsNodup_filter _ h)

/-- Membership after one filter is membership before plus the pure
predicate of that filter. -/
theorem applyK_mem (k : FKind) (ps : Params) {m : List Product} (h : idsNodup m)
    (pr : Product) : pr ∈ applyK k ps m ↔ pr ∈ m ∧ predK k ps pr = true := by
  cases k <;>
    simp only [applyK, predK, filterCategory, filterMinPrice, filterMaxPrice, filterInStock,
      filterMinStock, filterCreatedAfter, filterCreatedBefore, filterSearch] <;>
    (repeat' split) <;>
    simp_all [List.mem_filter, dedupById_eq_self (idsNodup_filter _ h)]

/-- The source pipeline is the in-order application of the eight filters. -/
theorem get_queryset_eq_applyOrder (ps : Params) (l : List Product) :
    get_queryset ps l = applyOrder ps allKinds l := rfl

/-- Membership after a sequence of filters is membership in the input
plus every predicate of the sequence. -/
theorem applyOrder_mem (ps : Params) (order : List FKind) {l : List Product}
    (h : idsNodup l) (pr : Product) :
    pr ∈ applyOrder ps order l ↔ pr ∈ l ∧ ∀ k ∈ order, predK k ps pr = true := by
  induction order generalizing l with
  | nil => simp [applyOrder]
  | cons k ks ih =>
      have step : applyOrder ps (k :: ks) l = applyOrder ps ks (applyK k ps l) := rfl
      rw [step, ih (applyK_idsNodup k ps h), applyK_mem k ps h]
      constructor
      · rintro ⟨⟨hm, hk⟩, hks⟩
        exact ⟨hm, by
          intro k2 hk2
          rcases List.mem_cons.mp hk2 with h2 | h2
          · exact h2 ▸ hk
          · exact hks k2 h2⟩
      · rintro ⟨hm, hall⟩
        exact ⟨⟨hm, hall k (List.mem_cons_self k ks)⟩, fun k2 h2 =>
          hall k2 (List.mem_cons_of_mem k h2)⟩

/-! ## Claims. -/

/-- C5: for every product collection with distinct ids and every set of
filter parameters, the result set of `get_queryset` is invariant under
any permutation of filter application order, and equals the intersection
of the sets obtained by applying each filter independently to the input
collection. -/
theorem C5_filter_order_independent (ps : Params) (l : List Product) (hl : idsNodup l)
    (order : List FKind) (hperm : order.Perm allKinds) (pr : Product) :
    (pr ∈ applyOrder ps order l ↔ pr ∈ get_queryset ps l) ∧
    (pr ∈ get_queryset ps l ↔ pr ∈ l ∧ ∀ k : FKind, pr ∈ applyK k ps l) := by
  have hall : ∀ o : List FKind, o.Perm allKinds →
      ((∀ k ∈ o, predK k ps pr = true) ↔ ∀ k : FKind, predK k ps pr = true) := by
    intro o ho
    constructor
    · intro h k
      exact h k (ho.mem_iff.mpr (mem_allKinds k))
    · intro h k _
      exact h k
  have hmem : ∀ o : List FKind, o.Perm allKinds →
      (pr ∈ applyOrder ps o l ↔ pr ∈ l ∧ ∀ k : FKind, predK k ps pr = true) := by
    intro o ho
    rw [applyOrder_mem ps o hl pr]
    exact and_congr_right (fun _ => hall o ho)
  have hq : pr ∈ get_queryset ps l ↔ pr ∈ l ∧ ∀ k : FKind, predK k ps pr = true := by
    rw [get_queryset_eq_applyOrder]
    exact hmem allKinds (List.Perm.refl allKinds)
  constructor
  · rw [hmem order hperm, hq]
  · rw [hq]
    constructor
    · rintro ⟨hm, hk⟩
      exact ⟨hm, fun k => (applyK_mem k ps hl pr).mpr ⟨hm, hk k⟩⟩
    · rintro ⟨hm, hk⟩
      exact ⟨hm, fun k => ((applyK_mem k ps hl pr).mp (hk k)).2⟩

/-- Witness for C5 at a concrete catalog, a reversed filter order and a
concrete parameter set. -/
theorem C5_witness :
    (bookP ∈ applyOrder { in_stock := some "true", search := some "python" }
        allKinds.reverse catalog1 ↔
      bookP ∈ get_queryset { in_stock := some "true", search := some "python" } catalog1) ∧
    (bookP ∈ get_queryset { in_stock := some "true", search := some "python" } catalog1 ↔
      bookP ∈ catalog1 ∧
        ∀ k : FKind,
          bookP ∈ applyK k { in_stock := some "true", search := some "python" } catalog1) :=
  C5_filter_order_independent { in_stock := some "true", search := some "python" }
    catalog1 (by unfold idsNodup; decide) allKinds.reverse (by decide) bookP

/-- C4: an unparseable optional filter value never raises: the
corresponding filter degrades to a no-op and `get_queryset` returns the
result of the remaining filters. -/
theorem C4_invalid_filters_noop (ps : Params) (l : List Product) (v : String) :
    (pyFloat? v = none →
      get_queryset { ps with min_price := some v } l =
        get_queryset { ps with min_price := none } l) ∧
    (pyFloat? v = none →
      get_queryset { ps with max_price := some v } l =
        get_queryset { ps with max_price := none } l) ∧
    (pyInt? v = none →
      get_queryset { ps with min_stock := some v } l =
        get_queryset { ps with min_stock := none } l) ∧
    (isoParse? (replaceZ v.data) = none →
      get_queryset { ps with created_after := some v } l =
        get_queryset { ps with created_after := none } l) ∧
    (isoParse? (replaceZ v.data) = none →
      get_queryset { ps with created_before := some v } l =
        get_queryset { ps with created_before := none } l) ∧
    (lowerIs v ['t', 'r', 'u', 'e'] = false → lowerIs v ['f', 'a', 'l', 's', 'e'] = false →
      get_queryset { ps with in_stock := some v } l =
        get_queryset { ps with in_stock := none } l) := by
  refine ⟨?_, ?_, ?_, ?_, ?_, ?_⟩
  · intro h
    simp [get_queryset, filterMinPrice, h]
  · intro h
    simp [get_queryset, filterMaxPrice, h]
  · intro h
    simp [get_queryset, filterMinStock, h]
  · intro h
    simp [get_queryset, filterCreatedAfter, h]
  · intro h
    simp [get_queryset, filterCreatedBefore, h]
  · intro h1 h2
    simp [get_queryset, filterInStock, h1, h2]

/-- Witness for C4 at the string `abc`, unparseable for every filter. -/
theorem C4_witness :
    get_queryset { min_price := some "abc" } catalog1 =
      get_queryset { min_price := none } catalog1 ∧
    get_queryset { min_stock := some "abc" } catalog1 =
      get_queryset { min_stock := none } catalog1 ∧
    get_queryset { created_after := some "abc" } catalog1 =
      get_queryset { created_after := none } catalog1 ∧
    get_queryset { in_stock := some "maybe" } catalog1 =
      get_queryset { in_stock := none } catalog1 := by
  have h1 := C4_invalid_filters_noop {} catalog1 "abc"
  have h2 := C4_invalid_filters_noop {} catalog1 "maybe"
  exact ⟨h1.1 (by decide), h1.2.2.1 (by decide), h1.2.2.2.1 (by decide),
    h2.2.2.2.2.2 (by decide) (by decide)⟩

/-- C1 (counterexample): the claim asserts AND-across-terms search
semantics, but the source OR-combines the per-term clauses
(`query |= ...`): the catalog `[pythonGuide]` queried with
`search=python programming` keeps the product although the term
`programming` matches none of its fields, while the AND semantics of the
spec returns nothing. -/
theorem C1_counterexample :
    get_queryset { search := some "python programming" } [pythonGuide] = [pythonGuide] ∧
    specSearchAND "python programming" [pythonGuide] = [] := by
  constructor
  · rfl
  · rfl

/-- C1 (amended): for every catalog and non-empty search term list, the
search filter returns exactly the deduplicated products for which SOME
whitespace term (OR across terms) matches the name, description or
category name case-insensitively, and no id appears twice in the
result. -/
theorem C1_search_or_semantics (s : String) (l : List Product) (h : pySplit s ≠ []) :
    get_queryset { search := some s } l =
      dedupById (l.filter (fun pr => (pySplit s).any (fun t => matchesTerm pr t))) ∧
    idsNodup (get_queryset { search := some s } l) := by
  have hq : get_queryset { search := some s } l = filterSearch (some s) l := rfl
  have hne : (pySplit s).isEmpty = false := by
    cases he : pySplit s with
    | nil => exact absurd he h
    | cons a t => rfl
  have hs : filterSearch (some s) l =
      dedupById (l.filter (fun pr => (pySplit s).any (fun t => matchesTerm pr t))) := by
    simp [filterSearch, hne]
  refine ⟨hq.trans hs, ?_⟩
  rw [hq, hs]
  exact dedupById_idsNodup _

/-- Witness for C1 at the scenario catalog: with OR semantics the
two-term query still returns exactly the programming book, because the
unrelated product matches neither term. -/
theorem C1_witness :
    pySplit "python programming" ≠ [] ∧
    get_queryset { search := some "python programming" } catalog1 = [bookP] := by
  have h := C1_search_or_semantics "python programming" catalog1 (by decide)
  refine ⟨by decide, ?_⟩
  rw [h.1]
  rfl

/-- An empty string is not a parseable decimal. -/
theorem pyFloat?_of_empty {s : String} (h : s.data = []) : pyFloat? s = none := by
  simp [pyFloat?, h]

/-- C9 (counterexample): the category-scoped listing does not support the
same search semantics as the main product list: searching `books` matches
the category name in `get_queryset` but only name and description in
`CategoryViewSet.products`, so the scoped endpoint drops the product. -/
theorem C9_counterexample :
    category_products 1 { search := some "books" } [pythonGuide] = [] ∧
    get_queryset { search := some "books" }
      ([pythonGuide].filter (fun pr => pr.category.id == 1)) = [pythonGuide] := by
  constructor
  · rfl
  · rfl

/-- C9 (amended): on the filters the scoped endpoint does share with the
main list, it agrees with `get_queryset` restricted to the category:
whenever search, min_stock, the date bounds and category are absent and
`in_stock` is not the unsupported value `false`, the category-scoped
listing equals the main filter applied to the products of that
category. -/
theorem C9_restricted_equivalence (catId : Nat) (ps : Params) (l : List Product)
    (hse : ps.search = none) (hms : ps.min_stock = none)
    (hca : ps.created_after = none) (hcb : ps.created_before = none)
    (hc : ps.category = none)
    (his : ∀ s, ps.in_stock = some s → lowerIs s ['f', 'a', 'l', 's', 'e'] = false) :
    category_products catId ps l =
      get_queryset ps (l.filter (fun pr => pr.category.id == catId)) := by
  obtain ⟨c, mi, ma, stk, ms, ca, cb, se⟩ := ps
  dsimp only at hse hms hca hcb hc his
  subst hse hms hca hcb hc
  simp only [category_products, get_queryset, filterCategory, filterMinStock,
    filterCreatedAfter, filterCreatedBefore, filterSearch]
  rcases mi with _ | smi <;> rcases ma with _ | sma <;> rcases stk with _ | sstk <;>
    simp only [filterMinPrice, filterMaxPrice, filterInStock] <;>
    (repeat'
      first
      | rw [Bool.not_eq_true']
      | split) <;>
    simp_all [pyFloat?_of_empty, List.isEmpty_iff]

/-- Witness for C9 at a concrete category, catalog and supported
parameter set. -/
theorem C9_witness :
    category_products 1 { min_price := some "30", in_stock := some "true" } catalog1 =
      get_queryset { min_price := some "30", in_stock := some "true" }
        (catalog1.filter (fun pr => pr.category.id == 1)) :=
  C9_restricted_equivalence 1 { min_price := some "30", in_stock := some "true" }
    catalog1 rfl rfl rfl rfl rfl (fun s hs => by cases hs; decide)

/-- C2: adding a product already in the cart merges quantities: with an
existing item of quantity `e` and a request of quantity `q ≥ 1`, if
`e + q` fits in current stock the operation succeeds and the cart holds
exactly one row for the product with quantity `e + q`; if `e + q` exceeds
stock the whole operation is rejected and the store is unchanged, the
existing row keeping quantity `e`. -/
theorem C2_add_merges_quantity (st : Store) (userId pid : Nat) (q : Int)
    (c : Cart) (p : Product) (it : CartItem)
    (hq : 1 ≤ q)
    (hc : st.carts.find? (fun x => x.userId == userId) = some c)
    (hp : findProduct? st.products pid = some p)
    (hit : itemsFor st c.id pid = [it]) :
    (it.quantity + q.toNat ≤ p.stock_quantity →
       (cartAdd st userId pid q).2 = .created ∧
       itemsFor (cartAdd st userId pid q).1 c.id pid =
         [{ it with quantity := it.quantity + q.toNat }]) ∧
    (p.stock_quantity < it.quantity + q.toNat →
       (cartAdd st userId pid q).1 = st ∧ (cartAdd st userId pid q).2 ≠ .created) := by
  have hfind : st.items.find? (fun j => j.cartId == c.id && j.productId == pid) = some it :=
    find?_of_filter_singleton hit
  have hnlt : ¬ q < 1 := not_lt.mpr hq
  have hqt : 1 ≤ q.toNat := by omega
  unfold cartAdd getOrCreateCart cartAddCore
  rw [hc]
  simp only [hp, hfind, if_neg hnlt]
  constructor
  · intro hle
    have h1 : ¬ p.stock_quantity < q.toNat := by omega
    have h2 : ¬ p.stock_quantity < it.quantity + q.toNat := not_lt.mpr hle
    rw [if_neg h1, if_neg h2]
    refine ⟨rfl, ?_⟩
    simp only [itemsFor, List.filter_map]
    have hcong : st.items.filter
        ((fun x => x.cartId == c.id && x.productId == pid) ∘ fun j =>
          if j.id == it.id then { j with quantity := it.quantity + q.toNat } else j) =
        st.items.filter (fun j => j.cartId == c.id && j.productId == pid) := by
      refine List.filter_congr ?_
      intro j _
      by_cases hj : j.id == it.id <;> simp [Function.comp, hj]
    rw [hcong, show st.items.filter (fun j => j.cartId == c.id && j.productId == pid) =
          itemsFor st c.id pid from rfl, hit]
    simp
  · intro hgt
    by_cases h1 : p.stock_quantity < q.toNat
    · rw [if_pos h1]
      exact ⟨rfl, (by decide : AddResult.exceedsStock ≠ AddResult.created)⟩
    · rw [if_neg h1, if_pos hgt]
      exact ⟨rfl, (by decide : AddResult.mergeExceedsStock ≠ AddResult.created)⟩

/-- Witness for C2: merging 3 onto an existing quantity of 2 with stock
10 yields one row of quantity 5, and merging 8 onto an existing quantity
of 4 with stock 10 is rejected leaving the store unchanged. -/
theorem C2_witness :
    ((cartAdd stA 7 1 3).2 = .created ∧
      itemsFor (cartAdd stA 7 1 3).1 2 1 = [⟨3, 2, 1, 5⟩]) ∧
    ((cartAdd stB 7 1 8).1 = stB ∧ (cartAdd stB 7 1 8).2 ≠ .created) := by
  have hA := C2_add_merges_quantity stA 7 1 3 ⟨2, 7⟩
    ⟨1, "Widget", "", dec2 1000, 10, 20240101, cBooks⟩ ⟨3, 2, 1, 2⟩
    (by decide) (by decide) (by decide) (by decide)
  have hB := C2_add_merges_quantity stB 7 1 8 ⟨2, 7⟩
    ⟨1, "Widget", "", dec2 1000, 10, 20240101, cBooks⟩ ⟨3, 2, 1, 4⟩
    (by decide) (by decide) (by decide) (by decide)
  exact ⟨hA.1 (by decide), hB.2 (by decide)⟩

/-- Updating the quantity of one identified item keeps every item within
the stock bound, provided the new quantity itself satisfies it. -/
theorem all_itemOK_update (prods : List Product) (items : List CartItem)
    (newQ : Nat) (it : CartItem)
    (h : items.all (itemOK prods) = true)
    (hids : (items.map CartItem.id).Nodup)
    (hit : it ∈ items)
    (hok : itemOK prods { it with quantity := newQ } = true) :
    (items.map (fun j => if j.id == it.id then { j with quantity := newQ } else j)).all
      (itemOK prods) = true := by
  rw [List.all_eq_true] at h ⊢
  intro x hx
  rcases List.mem_map.mp hx with ⟨j, hj, rfl⟩
  by_cases hjid : j.id == it.id
  · have hje : j = it := eq_of_mem_of_map_nodup hids hj hit (by simpa using hjid)
    subst hje
    simpa [hjid] using hok
  · simpa [hjid] using h j hj

/-- The cart lookup of Add changes neither items nor products. -/
theorem getOrCreateCart_frame (st : Store) (userId : Nat) :
    (getOrCreateCart st userId).1.items = st.items ∧
    (getOrCreateCart st userId).1.products = st.products := by
  unfold getOrCreateCart
  cases st.carts.find? (fun c => c.userId == userId) <;> exact ⟨rfl, rfl⟩

/-- The core of Add preserves the stock-bound invariant: both rejection
paths leave the store unchanged and both success paths write a quantity
checked against current stock. -/
theorem cartAddCore_preserves (st : Store) (cartId pid : Nat) (q : Int)
    (hinv : cartInvariant st = true) (hids : itemIdsNodup st.items) :
    cartInvariant (cartAddCore st cartId pid q).1 = true := by
  unfold cartAddCore
  by_cases h1 : q < 1
  · simpa [h1] using hinv
  rw [if_neg h1]
  cases hp : findProduct? st.products pid with
  | none => exact hinv
  | some p =>
      dsimp only
      by_cases h2 : p.stock_quantity < q.toNat
      · simpa [h2] using hinv
      rw [if_neg h2]
      cases hf : st.items.find? (fun it => it.cartId == cartId && it.productId == pid) with
      | none =>
          show (st.items ++ [(⟨st.nextId, cartId, pid, q.toNat⟩ : CartItem)]).all
              (itemOK st.products) = true
          rw [List.all_append]
          refine (Bool.and_eq_true _ _).mpr ⟨hinv, ?_⟩
          have hb : 1 ≤ q.toNat ∧ q.toNat ≤ p.stock_quantity := by omega
          simp [itemOK, findProduct?] at hp ⊢
          simp [hp]
          omega
      | some it =>
          dsimp only
          by_cases h3 : p.stock_quantity < it.quantity + q.toNat
          · simpa [h3] using hinv
          rw [if_neg h3]
          show (st.items.map fun j =>
              if j.id == it.id then { j with quantity := it.quantity + q.toNat } else j).all
                (itemOK st.products) = true
          refine all_itemOK_update st.products st.items _ it hinv hids
            (List.mem_of_find?_eq_some hf) ?_
          have hpidm : it.productId = pid := by
            have := List.find?_some hf
            simp at this
            exact this.2
          have hb : 1 ≤ it.quantity + q.toNat ∧ it.quantity + q.toNat ≤ p.stock_quantity := by
            omega
          simp [itemOK, hpidm, hp, hb.1, hb.2]

/-- SetQuantity preserves the stock-bound invariant: every rejection
leaves the store unchanged and the success path writes a quantity checked
against current stock. -/
theorem cartUpdateItem_preserves (st : Store) (userId itemId : Nat) (q : Option Int)
    (hinv : cartInvariant st = true) (hids : itemIdsNodup st.items) :
    cartInvariant (cartUpdateItem st userId itemId q).1 = true := by
  unfold cartUpdateItem
  cases hf : st.items.find? (fun it => it.id == itemId && cartBelongs st it.cartId userId) with
  | none => exact hinv
  | some it =>
      cases q with
      | none => exact hinv
      | some qv =>
          dsimp only
          by_cases h1 : qv < 1
          · simpa [h1] using hinv
          rw [if_neg h1]
          cases hp : findProduct? st.products it.productId with
          | none => exact hinv
          | some p =>
              dsimp only
              by_cases h2 : (p.stock_quantity : Int) < qv
              · simpa [h2] using hinv
              rw [if_neg h2]
              show (st.items.map fun j =>
                  if j.id == it.id then { j with quantity := qv.toNat } else j).all
                    (itemOK st.products) = true
              refine all_itemOK_update st.products st.items _ it hinv hids
                (List.mem_of_find?_eq_some hf) ?_
              have hb : 1 ≤ qv.toNat ∧ qv.toNat ≤ p.stock_quantity := by omega
              simp [itemOK, hp, hb.1, hb.2]

/-- C3 (counterexample): a successful staff stock update can break the
invariant: with stock 10 and a cart item of quantity 5, reducing stock by
8 succeeds and leaves the item quantity 5 above the new stock 2 — the
code never re-validates cart items on `update_stock`. -/
theorem C3_counterexample :
    cartInvariant st3 = true ∧
    (update_stock st3 1 (some (-8))).2 = .updated ∧
    cartInvariant (update_stock st3 1 (some (-8))).1 = false := by
  refine ⟨rfl, rfl, rfl⟩

/-- C3 (amended): the stock-bound invariant `1 ≤ quantity ≤ current
stock` is preserved by every cart-mutating call — Add and SetQuantity
both re-read the current stock for their bound checks — but it is NOT
preserved by `ProductViewSet.update_stock`, which can reduce stock below
an existing cart quantity without re-validating the cart. -/
theorem C3_cart_ops_preserve_invariant (st : Store) (userId pid itemId : Nat) (q : Int)
    (hinv : cartInvariant st = true) (hids : itemIdsNodup st.items) :
    cartInvariant (cartAdd st userId pid q).1 = true ∧
    cartInvariant (cartUpdateItem st userId itemId (some q)).1 = true := by
  have hframe := getOrCreateCart_frame st userId
  have hinv1 : cartInvariant (getOrCreateCart st userId).1 = true := by
    unfold cartInvariant
    rw [hframe.1, hframe.2]
    exact hinv
  have hids1 : itemIdsNodup (getOrCreateCart st userId).1.items := by
    rw [hframe.1]
    exact hids
  have hAdd : cartAdd st userId pid q =
      cartAddCore (getOrCreateCart st userId).1 (getOrCreateCart st userId).2 pid q := rfl
  refine ⟨?_, cartUpdateItem_preserves st userId itemId (some q) hinv hids⟩
  rw [hAdd]
  exact cartAddCore_preserves _ _ _ _ hinv1 hids1

/-- Witness for C3 at a concrete store: both cart operations keep the
invariant. -/
theorem C3_witness :
    cartInvariant stA = true ∧
    cartInvariant (cartAdd stA 7 1 6).1 = true ∧
    cartInvariant (cartUpdateItem stA 7 3 (some 6)).1 = true := by
  have h := C3_cart_ops_preserve_invariant stA 7 1 3 6 (by decide)
    (by unfold itemIdsNodup; decide)
  exact ⟨by decide, h.1, h.2⟩

/-- C6: SetQuantity answers not-found when the item id does not resolve
inside the cart of the requesting user (ownership by existence filtering,
never a permission error); on an owned item it rejects a quantity below 1
and a quantity above the current stock of the product, and on success it
overwrites the quantity with exactly the requested value. -/
theorem C6_set_quantity_contract (st : Store) (userId itemId : Nat) (q : Int) :
    (st.items.find? (fun it => it.id == itemId && cartBelongs st it.cartId userId) = none →
       cartUpdateItem st userId itemId (some q) = (st, .itemNotFound)) ∧
    (∀ it,
       st.items.find? (fun it => it.id == itemId && cartBelongs st it.cartId userId) =
           some it →
       (q < 1 → cartUpdateItem st userId itemId (some q) = (st, .badQuantity)) ∧
       (∀ p, findProduct? st.products it.productId = some p →
          (1 ≤ q → (p.stock_quantity : Int) < q →
             cartUpdateItem st userId itemId (some q) = (st, .exceedsStock)) ∧
          (1 ≤ q → q ≤ (p.stock_quantity : Int) →
             cartUpdateItem st userId itemId (some q) =
               ({ st with
                   items := st.items.map
                     (fun j => if j.id == itemId then { j with quantity := q.toNat } else j) },
                .updated)))) := by
  constructor
  · intro h
    unfold cartUpdateItem
    rw [h]
  · intro it hit
    have hid : it.id = itemId := by
      have := List.find?_some hit
      simp at this
      exact this.1
    constructor
    · intro hq
      unfold cartUpdateItem
      rw [hit]
      dsimp only
      rw [if_pos hq]
    · intro p hp
      constructor
      · intro hq1 hlt
        unfold cartUpdateItem
        rw [hit]
        dsimp only
        rw [if_neg (not_lt.mpr hq1), hp]
        dsimp only
        rw [if_pos hlt]
      · intro hq1 hq2
        unfold cartUpdateItem
        rw [hit]
        dsimp only
        rw [if_neg (not_lt.mpr hq1), hp]
        dsimp only
        rw [if_neg (not_lt.mpr hq2), hid]

/-- Witness for C6: an item of another user resolves to not-found, and an
owned item is overwritten to the requested quantity. -/
theorem C6_witness :
    cartUpdateItem stA 8 3 (some 2) = (stA, .itemNotFound) ∧
    cartUpdateItem stA 7 3 (some 6) =
      ({ stA with items := [⟨3, 2, 1, 6⟩] }, .updated) := by
  have h8 := C6_set_quantity_contract stA 8 3 2
  have h7 := C6_set_quantity_contract stA 7 3 6
  refine ⟨h8.1 (by decide), ?_⟩
  have hsucc :=
    (((h7.2 ⟨3, 2, 1, 2⟩ (by decide)).2 ⟨1, "Widget", "", dec2 1000, 10, 20240101, cBooks⟩
      (by decide)).2) (by decide) (by decide)
  rw [hsucc]
  rfl

/-- C7 (counterexample): adding a product id that references no product
is rejected by the serializer as a validation error (HTTP 400), not by
the not-found branch of the view: the claimed not-found answer never
happens for a missing product. -/
theorem C7_counterexample :
    (wishlistAdd stA 7 99).2 = .validationError ∧
    (wishlistAdd stA 7 99).2 ≠ .notFound := by
  refine ⟨rfl, by decide⟩

/-- C7 (amended): wishlist Add rejects a missing product with a
validation error — the serializer primary-key check runs before the view
lookup, whose not-found branch is unreachable — rejects an existing
(user, product) pair as a duplicate validation error, and on success
appends exactly one row, preserving uniqueness of the pairs. -/
theorem C7_wishlist_add_contract (st : Store) (userId pid : Nat) :
    (findProduct? st.products pid = none →
       wishlistAdd st userId pid = (st, .validationError)) ∧
    (∀ p, findProduct? st.products pid = some p →
       (st.wishlists.any (fun w => w.userId == userId && w.productId == pid) = true →
          wishlistAdd st userId pid = (st, .validationError)) ∧
       (st.wishlists.any (fun w => w.userId == userId && w.productId == pid) = false →
          (wishlistAdd st userId pid).2 = .created ∧
          (wishlistAdd st userId pid).1.wishlists =
            st.wishlists ++ [⟨st.nextId, userId, pid⟩] ∧
          (pairsNodup st.wishlists →
            pairsNodup (wishlistAdd st userId pid).1.wishlists))) := by
  constructor
  · intro h
    unfold wishlistAdd
    rw [h]
  · intro p hp
    constructor
    · intro hdup
      unfold wishlistAdd
      rw [hp]
      dsimp only
      rw [if_pos hdup]
    · intro hdup
      unfold wishlistAdd
      rw [hp]
      dsimp only
      rw [if_neg (by simp [hdup])]
      refine ⟨rfl, rfl, ?_⟩
      intro hnd
      unfold pairsNodup at hnd ⊢
      rw [List.map_append]
      refine List.Nodup.append hnd (List.nodup_singleton _) ?_
      intro a ha hb
      rcases List.mem_map.mp ha with ⟨w, hw, hwa⟩
      simp at hb
      rw [hb] at hwa
      have : st.wishlists.any (fun w => w.userId == userId && w.productId == pid) = true := by
        rw [List.any_eq_true]
        exact ⟨w, hw, by
          have h1 : w.userId = userId := congrArg Prod.fst hwa
          have h2 : w.productId = pid := congrArg Prod.snd hwa
          simp [h1, h2]⟩
      rw [this] at hdup
      cases hdup

/-- Witness for C7: adding a fresh product appends one row and keeps the
pair set unique. -/
theorem C7_witness :
    (wishlistAdd stA 7 1).2 = .created ∧
    (wishlistAdd stA 7 1).1.wishlists = stA.wishlists ++ [⟨4, 7, 1⟩] ∧
    pairsNodup (wishlistAdd stA 7 1).1.wishlists := by
  have h := (C7_wishlist_add_contract stA 7 1).2
    ⟨1, "Widget", "", dec2 1000, 10, 20240101, cBooks⟩ (by decide)
  have hs := h.2 (by decide)
  exact ⟨hs.1, hs.2.1, hs.2.2 (by unfold pairsNodup; decide)⟩

/-- C8: registration with mismatched password confirmation is rejected
with a validation error and the store is unchanged — no user row and no
cart row are created; a successful registration appends exactly one user
and one cart for that user and returns the issued token pair. -/
theorem C8_registration_contract (strong : String → Bool)
    (issueTokens : Nat → String × String) (st : RegStore) (r : RegRequest) :
    (r.password ≠ r.password_confirm →
       register strong issueTokens st r = (st, .validationError)) ∧
    (∀ st2 uid tk, register strong issueTokens st r = (st2, .created uid tk) →
       st2.users = st.users ++
         [⟨uid, r.username, r.email, r.password, r.first_name.getD "",
           r.last_name.getD ""⟩] ∧
       st2.regCarts = st.regCarts ++ [⟨st.nextId + 1, uid⟩] ∧
       tk = issueTokens uid) := by
  constructor
  · intro hne
    unfold register
    (repeat' split) <;> first | rfl | simp_all
  · intro st2 uid tk h
    unfold register at h
    split at h
    · simp at h
    split at h
    · simp at h
    split at h
    · simp at h
    split at h
    · simp at h
    injection h with h1 h2
    injection h2 with h3 h4
    subst h1
    subst h3
    subst h4
    exact ⟨rfl, rfl, rfl⟩

/-- Witness for C8: a mismatched confirmation leaves the empty store
unchanged, and a successful registration appends the one user row. -/
theorem C8_witness :
    register (fun _ => true) (fun _ => ("r", "a")) regSt
        ⟨"u", "e", "p1", "p2", none, none⟩ = (regSt, .validationError) ∧
    (register (fun _ => true) (fun _ => ("r", "a")) regSt
        ⟨"u", "e", "p", "p", none, none⟩).1.users =
      regSt.users ++ [⟨1, "u", "e", "p", "", ""⟩] := by
  have h1 := C8_registration_contract (fun _ => true) (fun _ => ("r", "a")) regSt
    ⟨"u", "e", "p1", "p2", none, none⟩
  have h2 := C8_registration_contract (fun _ => true) (fun _ => ("r", "a")) regSt
    ⟨"u", "e", "p", "p", none, none⟩
  refine ⟨h1.1 (by decide), ?_⟩
  exact (h2.2 (register (fun _ => true) (fun _ => ("r", "a")) regSt
    ⟨"u", "e", "p", "p", none, none⟩).1 1 ("r", "a") (by decide)).1

/-- C10: a stock update request without a `quantity_change` key is
accepted: the change defaults to 0, the product keeps its stock and every
other field, and the endpoint answers success with the current product. -/
theorem C10_update_stock_missing_key (st : Store) (pid : Nat) (p : Product)
    (hp : findProduct? st.products pid = some p)
    (hids : idsNodup st.products) :
    update_stock st pid none = (st, .updated) := by
  have hpmem : p ∈ st.products := List.mem_of_find?_eq_some hp
  have hpid : p.id = pid := by simpa using List.find?_some hp
  unfold update_stock
  rw [hp]
  dsimp only
  simp only [Option.getD_none]
  rw [if_neg (by omega : ¬ ((p.stock_quantity : Int) + 0 < 0))]
  have hmap : st.products.map
      (fun x => if x.id == pid then
        { x with stock_quantity := ((p.stock_quantity : Int) + 0).toNat } else x) =
      st.products := by
    refine map_eq_self_of ?_
    intro x hx
    by_cases hxid : x.id == pid
    · have hxe : x = p := eq_of_mem_of_map_nodup hids hx hpmem (by
        rw [hpid]
        simpa using hxid)
      subst hxe
      simp
    · simp [hxid]
  rw [hmap]

/-- Witness for C10 at a concrete store. -/
theorem C10_witness : update_stock stA 1 none = (stA, .updated) :=
  C10_update_stock_missing_key stA 1 ⟨1, "Widget", "", dec2 1000, 10, 20240101, cBooks⟩
    (by decide) (by unfold idsNodup; decide)
